import Mathlib

/-!
Shallow embedding of the clinic-dashboard aggregation pipeline
(`streamlit_clinic_dashboard_normal_v14.py`) and proofs about its claims.

Python strings are modelled as lists of Unicode code points (`PyStr`), so
that Python's string comparison is the lexicographic order on `List ℕ`.
Monetary values are modelled as rationals, Python ints as `ℤ`/`ℕ`.
-/

namespace Clinic

/-- A Python string, as its sequence of code points; Python's `<` on
strings is the lexicographic order, which is the `List ℕ` order. -/
abbrev PyStr := List ℕ

/-- A calendar date as carried by a pandas `Timestamp` (`datetime64[ns]`). -/
structure Date where
  year : ℕ
  month : ℕ
  day : ℕ
deriving DecidableEq, Repr

/-- The `datetime64[ns]` representable range: pandas Timestamps lie between
1677-09-21 and 2262-04-11, so every year has exactly four digits. -/
def validTs (d : Date) : Prop :=
  1677 ≤ d.year ∧ d.year ≤ 2262 ∧ 1 ≤ d.month ∧ d.month ≤ 12 ∧
    1 ≤ d.day ∧ d.day ≤ 31

instance (d : Date) : Decidable (validTs d) := by unfold validTs; infer_instance

/-- Timestamp order: lexicographic on (year, month, day). -/
def dateLt (a b : Date) : Prop :=
  a.year < b.year ∨ (a.year = b.year ∧
    (a.month < b.month ∨ (a.month = b.month ∧ a.day < b.day)))

instance (a b : Date) : Decidable (dateLt a b) := by unfold dateLt; infer_instance

/-- `a <= b` on Timestamps. -/
def dateLe (a b : Date) : Prop := dateLt a b ∨ a = b

instance (a b : Date) : Decidable (dateLe a b) := by unfold dateLe; infer_instance

/-- Code point of the decimal digit `n % 10`. -/
def digit (n : ℕ) : ℕ := 48 + n % 10

/-- `clinic_df["Date"].dt.to_period("M").astype(str)`: the month key string
`"YYYY-MM"`, zero padded (4-digit year, 2-digit month). -/
def monthKey (d : Date) : PyStr :=
  [digit (d.year / 1000), digit (d.year / 100), digit (d.year / 10),
   digit d.year, 45, digit (d.month / 10), digit d.month]

/-- One row of the uploaded dataset (`clinic_df`). `CPT` is coerced to a
string by the loader, hence `cpt : PyStr`. -/
structure BillingRecord where
  date : Date
  provider : PyStr
  cpt : PyStr
  units : ℤ
  billed : ℚ
  net : ℚ
deriving DecidableEq, Repr

/-- One output row of a `groupby(...).agg({"Units":"sum","Billed Amount":"sum",
"Net Payment":"sum"})` call. -/
structure AggRow where
  key : PyStr
  units : ℤ
  billed : ℚ
  net : ℚ
deriving DecidableEq, Repr

/-- The distinct keys of a `groupby`, in sorted order (pandas `groupby`
sorts group keys by default). -/
def keysOf (key : BillingRecord → PyStr) (l : List BillingRecord) : List PyStr :=
  ((l.map key).dedup).insertionSort (· ≤ ·)

/-- `groupby(key).agg(sums).reset_index()`: one `AggRow` per distinct
key value, numeric columns summed over the rows of the group. -/
def groupRows (key : BillingRecord → PyStr) (l : List BillingRecord) : List AggRow :=
  (keysOf key l).map (fun k =>
    let g := l.filter (fun r => decide (key r = k))
    { key := k
      units := (g.map (fun r => r.units)).sum
      billed := (g.map (fun r => r.billed)).sum
      net := (g.map (fun r => r.net)).sum })

/-! ### Executive Summary (section 1 of the script) -/

/-- `all_months = sorted(clinic_df["Month"].unique())`. -/
def allMonths (l : List BillingRecord) : List PyStr :=
  keysOf (fun r => monthKey r.date) l

/-- `md` totals for one month: `(int(md["Units"].sum()), md["Billed Amount"].sum(),
md["Net Payment"].sum())` over the rows whose `Month` equals `m`. -/
def monthTotals (l : List BillingRecord) (m : PyStr) : ℤ × ℚ × ℚ :=
  let md := l.filter (fun r => decide (monthKey r.date = m))
  ((md.map (fun r => r.units)).sum,
   (md.map (fun r => r.billed)).sum,
   (md.map (fun r => r.net)).sum)

/-- `prev_m = [m for m in all_months if m < selected_month]`, and the code
uses `prev_m[-1]` when the list is nonempty. -/
def prevMonth (l : List BillingRecord) (sel : PyStr) : Option PyStr :=
  ((allMonths l).filter (fun m => decide (m < sel))).getLast?

/-- `pu, pb, pp`: totals of `prev_m[-1]` when it exists, else `0`. -/
def baseline (l : List BillingRecord) (sel : PyStr) : ℤ × ℚ × ℚ :=
  match prevMonth l sel with
  | some p => monthTotals l p
  | none => (0, 0, 0)

/-- The three signed deltas shown by `st.metric`: current totals minus the
preceding-month baseline. -/
def deltas (l : List BillingRecord) (sel : PyStr) : ℤ × ℚ × ℚ :=
  let tm := monthTotals l sel
  let pv := baseline l sel
  (tm.1 - pv.1, tm.2.1 - pv.2.1, tm.2.2 - pv.2.2)

/-! ### Provider Productivity (section 2) -/

/-- `fil`: rows with `Provider` in the selection and `Date` inside the
inclusive range. -/
def filRows (l : List BillingRecord) (selProv : List PyStr) (lo hi : Date) :
    List BillingRecord :=
  l.filter (fun r =>
    decide (r.provider ∈ selProv) && decide (dateLe lo r.date) &&
      decide (dateLe r.date hi))

/-- `prod_sum = fil.groupby("Provider").agg(sums).reset_index()`. -/
def prodSum (l : List BillingRecord) (selProv : List PyStr) (lo hi : Date) :
    List AggRow :=
  groupRows (fun r => r.provider) (filRows l selProv lo hi)

/-! ### CPT Code Analysis (section 3) -/

/-- `clinic_df.groupby("CPT").agg(sums)` — the per-CPT aggregate table,
before the top-10 truncation. -/
def cptAgg (l : List BillingRecord) : List AggRow :=
  groupRows (fun r => r.cpt) l

/-- Ascending comparison on the `Units` column. -/
def unitsLe (a b : AggRow) : Prop := a.units ≤ b.units

instance (a b : AggRow) : Decidable (unitsLe a b) := by unfold unitsLe; infer_instance

/-- `cpt_sum = clinic_df.groupby("CPT").agg(sums).sort_values("Units",
ascending=False).reset_index().head(10)`. pandas performs a descending
`sort_values` by arg-sorting ascending and reversing the result
(`pandas.core.sorting.nargsort`: `indexer = indexer[::-1]`); numpy's
introsort coincides with a stable insertion sort on short arrays, so ties
keep the (sorted-by-CPT) group order before the reversal. -/
def cptSum (l : List BillingRecord) : List AggRow :=
  (((cptAgg l).insertionSort unitsLe).reverse).take 10

/-- Descending comparison on the `Units` column. -/
def unitsGe (a b : AggRow) : Prop := b.units ≤ a.units

instance (a b : AggRow) : Decidable (unitsGe a b) := by unfold unitsGe; infer_instance

/-- Deduplication keeping the first occurrence of each element, in
encounter order — the semantics of pandas `unique()`. Mathlib's `dedup`
keeps the last occurrence, so dedup the reversed list and reverse back. -/
def firstDedup {α : Type} [DecidableEq α] (l : List α) : List α :=
  (l.reverse.dedup).reverse

/-- Modelled from the spec's words, for comparison with `cptSum`: the
per-CPT aggregate rows in original row encounter order (first appearance of
each CPT), sorted descending by units with a stable sort, so that "ties
[are] broken by the original row encounter order of the input records". -/
def cptSumSpec (l : List BillingRecord) : List AggRow :=
  (((firstDedup (l.map (fun r => r.cpt))).map (fun k =>
    let g := l.filter (fun r => decide (r.cpt = k))
    { key := k
      units := (g.map (fun r => r.units)).sum
      billed := (g.map (fun r => r.billed)).sum
      net := (g.map (fun r => r.net)).sum : AggRow })).insertionSort unitsGe).take 10

/-! ### Monthly trend / Billed vs Paid (sections 4 and 5): both call
`df.groupby(df["Date"].dt.to_period("M")).agg(sums)` on the full dataset. -/

/-- Monthly sums over the whole dataset, keyed by month string. -/
def monthRows (l : List BillingRecord) : List AggRow :=
  groupRows (fun r => monthKey r.date) l

/-! ### Provider Comparison (section 6) -/

/-- `providers = clinic_df["Provider"].dropna().unique().tolist()` —
the distinct providers in first-appearance order (pandas `unique()` keeps
the first occurrence of each value). -/
def providersOf (l : List BillingRecord) : List PyStr :=
  firstDedup (l.map (fun r => r.provider))

/-- The comparison block runs only under `if len(sel_two) == 2:`; otherwise
it produces nothing (an info prompt only). `cs` groups the rows of the two
selected providers by `Provider`. -/
def comparisonOf (l : List BillingRecord) (selTwo : List PyStr) :
    Option (List AggRow) :=
  if selTwo.length = 2 then
    some (groupRows (fun r => r.provider)
      (l.filter (fun r => decide (r.provider ∈ selTwo))))
  else none

/-! ### The derived tables of one dashboard render -/

/-- The derived tables handed to the presentation layer. -/
structure Outputs where
  execTotals : ℤ × ℚ × ℚ
  execDeltas : ℤ × ℚ × ℚ
  prodTable : List AggRow
  cptTop : List AggRow
  monthlyTrend : List AggRow
  billedVsPaid : List AggRow
  comparisonTable : Option (List AggRow)
deriving DecidableEq

/-- One full recomputation of the dashboard tables from the dataset and the
user-selected parameters. Only `prodTable` reads the date-range/provider
filter; sections 3–6 are computed from the full `clinic_df`. -/
def dashboard (l : List BillingRecord) (selMonth : PyStr)
    (selProv : List PyStr) (lo hi : Date) (selTwo : List PyStr) : Outputs :=
  { execTotals := monthTotals l selMonth
    execDeltas := deltas l selMonth
    prodTable := prodSum l selProv lo hi
    cptTop := cptSum l
    monthlyTrend := monthRows l
    billedVsPaid := monthRows l
    comparisonTable := comparisonOf l selTwo }

/-! ### Upload validation (lines 39–53 of the script) -/

/-- The required column set (`required_cols`). -/
def requiredCols : List String :=
  ["Units", "Billed Amount", "Net Payment", "Date", "Provider", "CPT"]

/-- `missing = required_cols - set(clinic_df.columns)`. -/
def missingCols (cols : List String) : List String :=
  requiredCols.filter (fun c => decide (c ∉ cols))

/-- How loading an upload can fail. -/
inductive LoadError
  /-- `pd.read_csv(uploaded, parse_dates=["Date"])` raises a `ValueError`
  when the `Date` column named in `parse_dates` is absent. -/
  | parseDatesMissing
  /-- The `st.error(...)`/`st.stop()` branch listing the missing columns. -/
  | missingColumns (ms : List String)
deriving DecidableEq

/-- The load-and-validate prefix of the script, in source order: first
`pd.read_csv(..., parse_dates=["Date"])` (which raises if `Date` is not a
column), then the `required_cols` check with `st.stop()` on violation. -/
def loadAndValidate (cols : List String) : Except LoadError Unit :=
  if "Date" ∈ cols then
    if missingCols cols ≠ [] then .error (.missingColumns (missingCols cols))
    else .ok ()
  else .error .parseDatesMissing

/-- The whole script run: any load/validation error halts before any table
is produced (`st.stop()`), so no partial `Outputs` exist. -/
def processUpload (cols : List String) (l : List BillingRecord)
    (selMonth : PyStr) (selProv : List PyStr) (lo hi : Date)
    (selTwo : List PyStr) : Except LoadError Outputs :=
  match loadAndValidate cols with
  | .error e => .error e
  | .ok _ => .ok (dashboard l selMonth selProv lo hi selTwo)

/-! ### Synthetic KPI generator (section 7, `generate_fake_kpis`) -/

/-- `np.round` ties-to-even rounding of a rational to the nearest integer. -/
def rndHalfEven (q : ℚ) : ℤ :=
  if q - (⌊q⌋ : ℚ) < 1/2 then ⌊q⌋
  else if 1/2 < q - (⌊q⌋ : ℚ) then ⌊q⌋ + 1
  else if 2 ∣ ⌊q⌋ then ⌊q⌋ else ⌊q⌋ + 1

/-- `np.round(x, 2)`: round to two decimal places, ties to even. -/
def rnd2 (q : ℚ) : ℚ := ((rndHalfEven (100 * q) : ℚ)) / 100

/-- The random draws consumed for one `(date, provider)` iteration of
`generate_fake_kpis`'s inner loop, in source order. -/
structure KpiDraws where
  /-- `visits = np.random.poisson(12)` -/
  visits : ℤ
  /-- `no_shows = np.random.binomial(visits, 0.10)` -/
  noShows : ℤ
  /-- `tms = np.random.binomial(completed, 0.25)` -/
  tms : ℤ
  /-- `np.random.normal(200, 50)` -/
  xNormal : ℚ
  /-- `collect = np.random.uniform(0.70, 0.95)` -/
  collect : ℚ
  /-- `denials = np.random.binomial(completed, 0.10)` -/
  denials : ℤ
  /-- `b = np.random.dirichlet([2, 1, 0.5, 0.3])`, four proportions -/
  b1 : ℚ
  b2 : ℚ
  b3 : ℚ
  b4 : ℚ
deriving DecidableEq, Repr

/-- The support of the distributions the draws come from: a Poisson draw is
a non-negative integer, a `binomial(n, p)` draw lies in `[0, n]`,
`uniform(0.70, 0.95)` lies strictly inside that interval, and a Dirichlet
vector has positive entries summing to 1 (the Normal draw is unrestricted). -/
def KpiDrawsSupport (d : KpiDraws) : Prop :=
  0 ≤ d.visits ∧ 0 ≤ d.noShows ∧ d.noShows ≤ d.visits ∧
  0 ≤ d.tms ∧ d.tms ≤ d.visits - d.noShows ∧
  0 ≤ d.denials ∧ d.denials ≤ d.visits - d.noShows ∧
  7/10 < d.collect ∧ d.collect < 19/20 ∧
  0 < d.b1 ∧ 0 < d.b2 ∧ 0 < d.b3 ∧ 0 < d.b4 ∧
  d.b1 + d.b2 + d.b3 + d.b4 = 1

instance (d : KpiDraws) : Decidable (KpiDrawsSupport d) := by
  unfold KpiDrawsSupport; infer_instance

/-- One fabricated day × provider row appended to `out`. -/
structure SyntheticKpiRecord where
  date : Date
  provider : PyStr
  visits : ℤ
  noShows : ℤ
  completed : ℤ
  tms : ℤ
  billed : ℚ
  netPayment : ℚ
  denials : ℤ
  ar0_30 : ℚ
  ar31_60 : ℚ
  ar61_90 : ℚ
  ar90plus : ℚ
  avgRevPerVisit : ℚ
deriving DecidableEq, Repr

/-- The body of `generate_fake_kpis`'s inner loop, computing one record
from the draws:
`completed = visits - no_shows`,
`billed = np.round(completed * X, 2)`,
`net_paid = np.round(billed * collect, 2)`,
`ar_tot = billed - net_paid`, `ar_age = np.round(ar_tot * b, 2)`,
`AvgRevPerVisit = net_paid/completed if completed > 0 else 0`. -/
def mkKpiRecord (date : Date) (prov : PyStr) (d : KpiDraws) :
    SyntheticKpiRecord :=
  let completed : ℤ := d.visits - d.noShows
  let billed : ℚ := rnd2 ((completed : ℚ) * d.xNormal)
  let netPaid : ℚ := rnd2 (billed * d.collect)
  let arTot : ℚ := billed - netPaid
  { date := date
    provider := prov
    visits := d.visits
    noShows := d.noShows
    completed := completed
    tms := d.tms
    billed := billed
    netPayment := netPaid
    denials := d.denials
    ar0_30 := rnd2 (arTot * d.b1)
    ar31_60 := rnd2 (arTot * d.b2)
    ar61_90 := rnd2 (arTot * d.b3)
    ar90plus := rnd2 (arTot * d.b4)
    avgRevPerVisit := if 0 < completed then netPaid / (completed : ℚ) else 0 }

/-- `generate_fake_kpis`: one record per `(date, provider)` pair of the
nested loop, with that iteration's random draws made explicit. -/
def generateFakeKpis (pairs : List (Date × PyStr × KpiDraws)) :
    List SyntheticKpiRecord :=
  pairs.map (fun p => mkKpiRecord p.1 p.2.1 p.2.2)

/-! ### Monthly KPI aggregation and rates (lines 231–243) -/

/-- One row of `mp = kpi.groupby("Month").agg(sums)`. -/
structure KpiAggRow where
  month : PyStr
  visits : ℤ
  noShows : ℤ
  tms : ℤ
  denials : ℤ
  billed : ℚ
  netPayment : ℚ
deriving DecidableEq, Repr

/-- Distinct month keys of the synthetic set, sorted (pandas `groupby`
sorts its keys). -/
def kpiMonths (l : List SyntheticKpiRecord) : List PyStr :=
  ((l.map (fun r => monthKey r.date)).dedup).insertionSort (· ≤ ·)

/-- `mp = kpi.groupby("Month").agg({"Visits":"sum", ...}).reset_index()`. -/
def kpiMonthRows (l : List SyntheticKpiRecord) : List KpiAggRow :=
  (kpiMonths l).map (fun k =>
    let g := l.filter (fun r => decide (monthKey r.date = k))
    { month := k
      visits := (g.map (fun r => r.visits)).sum
      noShows := (g.map (fun r => r.noShows)).sum
      tms := (g.map (fun r => r.tms)).sum
      denials := (g.map (fun r => r.denials)).sum
      billed := (g.map (fun r => r.billed)).sum
      netPayment := (g.map (fun r => r.netPayment)).sum })

/-- `latest = mp.iloc[-1]`. -/
def latestKpiRow (l : List SyntheticKpiRecord) : Option KpiAggRow :=
  (kpiMonthRows l).getLast?

/-- The value class of an IEEE division as pandas/numpy perform it:
a finite float, `inf`, `-inf`, or `nan`. -/
inductive PdFloat
  | nan
  | inf
  | ninf
  | val (q : ℚ)
deriving DecidableEq, Repr

/-- numpy float division: `0/0 → nan`, `±x/0 → ±inf` for `x ≠ 0`, an
ordinary quotient otherwise; never an exception. -/
def pdDiv (a b : ℚ) : PdFloat :=
  if b = 0 then
    if a = 0 then .nan else if 0 < a then .inf else .ninf
  else .val (a / b)

/-- `mp["NoShowRate"] = mp["NoShows"]/mp["Visits"]`. -/
def noShowRate (row : KpiAggRow) : PdFloat :=
  pdDiv (row.noShows : ℚ) (row.visits : ℚ)

/-- `mp["DenialRate"] = mp["Denials"]/mp["Visits"]`. -/
def denialRate (row : KpiAggRow) : PdFloat :=
  pdDiv (row.denials : ℚ) (row.visits : ℚ)

/-- `latest['TMS']/latest['Visits']` (the `* 100` display scaling keeps
`nan` as `nan`). -/
def tmsRate (row : KpiAggRow) : PdFloat :=
  pdDiv (row.tms : ℚ) (row.visits : ℚ)

/-! ### Concrete data used to instantiate the theorems -/

/-- Provider "A" (code points of the one-letter name). -/
def provA : PyStr := [65]

/-- Provider "B". -/
def provB : PyStr := [66]

/-- CPT code "90837". -/
def cpt90837 : PyStr := [57, 48, 56, 51, 55]

/-- The first record of the spec's end-to-end scenario:
`{Date=2024-01-05, Provider=A, CPT=90837, Units=1, Billed=100, Net=80}`. -/
def recJan : BillingRecord :=
  { date := ⟨2024, 1, 5⟩, provider := provA, cpt := cpt90837,
    units := 1, billed := 100, net := 80 }

/-- The second record of the spec's end-to-end scenario:
`{Date=2024-02-10, Provider=A, CPT=90837, Units=2, Billed=200, Net=150}`. -/
def recFeb : BillingRecord :=
  { date := ⟨2024, 2, 10⟩, provider := provA, cpt := cpt90837,
    units := 2, billed := 200, net := 150 }

/-- A record of a second provider (for the comparison witness). -/
def recBobJan : BillingRecord :=
  { date := ⟨2024, 1, 7⟩, provider := provB, cpt := cpt90837,
    units := 3, billed := 300, net := 240 }

/-- A record whose CPT is "A", encountered first. -/
def recCptA : BillingRecord :=
  { date := ⟨2024, 1, 5⟩, provider := provA, cpt := [65],
    units := 5, billed := 100, net := 80 }

/-- A record whose CPT is "B", encountered second, tied with `recCptA`
on `Units`. -/
def recCptB : BillingRecord :=
  { date := ⟨2024, 1, 6⟩, provider := provA, cpt := [66],
    units := 5, billed := 50, net := 40 }

/-- A draw vector with `visits = 0` (a Poisson draw of 0 forces the
`binomial(0, p)` draws to 0): a month whose aggregate `Visits` is 0. -/
def zeroVisitDraws : KpiDraws :=
  { visits := 0, noShows := 0, tms := 0, xNormal := 200, collect := 4/5,
    denials := 0, b1 := 1/2, b2 := 1/4, b3 := 1/8, b4 := 1/8 }

/-- Draws under which the four rounded aging buckets each gain 0.005:
`completed = 1`, `X = 0.3`, `collect = 0.8`, so `ar_tot = 0.06` and each
`ar_tot * 0.25 = 0.015` rounds to `0.02`. -/
def halfCentDraws : KpiDraws :=
  { visits := 1, noShows := 0, tms := 0, xNormal := 3/10, collect := 4/5,
    denials := 0, b1 := 1/4, b2 := 1/4, b3 := 1/4, b4 := 1/4 }

/-- Draws with a negative Normal draw: `billed = -100`, `net = -80`,
`ar_tot = -20`, every aging bucket `-5`. -/
def negBilledDraws : KpiDraws :=
  { visits := 1, noShows := 0, tms := 0, xNormal := -100, collect := 4/5,
    denials := 0, b1 := 1/4, b2 := 1/4, b3 := 1/4, b4 := 1/4 }

/-- Column sums of an aggregate table: `(sum Units, sum Billed, sum Net)`. -/
def tableSums (rows : List AggRow) : ℤ × ℚ × ℚ :=
  ((rows.map (fun r => r.units)).sum,
   (rows.map (fun r => r.billed)).sum,
   (rows.map (fun r => r.net)).sum)

/-- Column sums of a list of input records. -/
def recordSums (l : List BillingRecord) : ℤ × ℚ × ℚ :=
  ((l.map (fun r => r.units)).sum,
   (l.map (fun r => r.billed)).sum,
   (l.map (fun r => r.net)).sum)

/-! ## Helper lemmas -/

theorem sum_map_add {M α : Type} [AddCommMonoid M] (l : List α) (f g : α → M) :
    (l.map (fun x => f x + g x)).sum = (l.map f).sum + (l.map g).sum := by
  induction l with
  | nil => simp
  | cons a t ih =>
    simp only [List.map_cons, List.sum_cons, ih, add_add_add_comm]

theorem sum_map_ite_single {M : Type} [AddCommMonoid M] (c : PyStr) (x : M) :
    ∀ keys : List PyStr, keys.Nodup → c ∈ keys →
      (keys.map (fun k => if c = k then x else 0)).sum = x := by
  intro keys
  induction keys with
  | nil => intro _ h; simp at h
  | cons k t ih =>
    intro hnd hc
    have hkt : k ∉ t := (List.nodup_cons.mp hnd).1
    rcases List.mem_cons.mp hc with h | h
    · subst h
      have hz : (t.map (fun k' => if c = k' then x else 0)).sum = 0 := by
        apply List.sum_eq_zero
        intro y hy
        rcases List.mem_map.mp hy with ⟨k', hk', hval⟩
        have : c ≠ k' := fun he => hkt (he ▸ hk')
        simp [this] at hval
        exact hval.symm
      simp [hz]
    · have hck : c ≠ k := fun he => hkt (he ▸ h)
      simp only [List.map_cons, List.sum_cons, if_neg hck, zero_add]
      exact ih (List.nodup_cons.mp hnd).2 h

theorem sum_groupby {M : Type} [AddCommMonoid M] (key : BillingRecord → PyStr)
    (f : BillingRecord → M) :
    ∀ (l : List BillingRecord) (keys : List PyStr), keys.Nodup →
      (∀ r ∈ l, key r ∈ keys) →
      (keys.map (fun k =>
        ((l.filter (fun r => decide (key r = k))).map f).sum)).sum
        = (l.map f).sum := by
  intro l
  induction l with
  | nil => intro keys _ _; simp
  | cons r t ih =>
    intro keys hnd hcov
    have hmem : key r ∈ keys := hcov r (List.mem_cons_self r t)
    have hcovt : ∀ x ∈ t, key x ∈ keys := fun x hx => hcov x (List.mem_cons_of_mem r hx)
    have hfun : (fun k =>
        (((r :: t).filter (fun r' => decide (key r' = k))).map f).sum)
        = (fun k => (if key r = k then f r else 0) +
            ((t.filter (fun r' => decide (key r' = k))).map f).sum) := by
      funext k
      by_cases h : key r = k <;> simp [List.filter_cons, h]
    rw [hfun, sum_map_add, sum_map_ite_single _ _ keys hnd hmem,
      ih keys hnd hcovt, List.map_cons, List.sum_cons]

theorem mem_firstDedup {α : Type} [DecidableEq α] {a : α} {l : List α} :
    a ∈ firstDedup l ↔ a ∈ l := by
  simp [firstDedup]

theorem keysOf_nodup (key : BillingRecord → PyStr) (l : List BillingRecord) :
    (keysOf key l).Nodup :=
  (List.perm_insertionSort _ _).nodup_iff.mpr ((l.map key).nodup_dedup)

theorem mem_keysOf (key : BillingRecord → PyStr) {l : List BillingRecord}
    {r : BillingRecord} (h : r ∈ l) : key r ∈ keysOf key l := by
  unfold keysOf
  rw [List.mem_insertionSort]
  exact List.mem_dedup.mpr (List.mem_map_of_mem key h)

theorem tableSums_groupRows (key : BillingRecord → PyStr) (l : List BillingRecord) :
    tableSums (groupRows key l) = recordSums l := by
  simp only [tableSums, groupRows, recordSums, List.map_map, Function.comp]
  refine Prod.ext ?hu (Prod.ext ?hb ?hn)
  · exact sum_groupby key (fun r => r.units) l _ (keysOf_nodup key l)
      (fun r hr => mem_keysOf key hr)
  · exact sum_groupby key (fun r => r.billed) l _ (keysOf_nodup key l)
      (fun r hr => mem_keysOf key hr)
  · exact sum_groupby key (fun r => r.net) l _ (keysOf_nodup key l)
      (fun r hr => mem_keysOf key hr)

/-! ## Claim theorems -/

/-- C8: for each grouping dimension (provider, CPT, month), the column sums
of the aggregate table equal the corresponding sums over the input records
passing the filter (the provider table aggregates the filtered rows `fil`;
the CPT and month tables aggregate the full dataset). -/
theorem c8_aggregation_mass_conservation (l : List BillingRecord)
    (selProv : List PyStr) (lo hi : Date) :
    tableSums (prodSum l selProv lo hi) = recordSums (filRows l selProv lo hi) ∧
    tableSums (cptAgg l) = recordSums l ∧
    tableSums (monthRows l) = recordSums l :=
  ⟨tableSums_groupRows _ _, tableSums_groupRows _ _, tableSums_groupRows _ _⟩

/-- C10: the date-range/provider filter feeds only the provider-productivity
table; the top-10 CPT table, the monthly trend, the billed-vs-paid series and
the two-provider comparison are computed from the full dataset, so they do
not change when the filter parameters change. -/
theorem c10_filter_frame_effect (l : List BillingRecord) (selMonth : PyStr)
    (sp1 sp2 : List PyStr) (lo1 hi1 lo2 hi2 : Date) (selTwo : List PyStr) :
    (dashboard l selMonth sp1 lo1 hi1 selTwo).cptTop
      = (dashboard l selMonth sp2 lo2 hi2 selTwo).cptTop ∧
    (dashboard l selMonth sp1 lo1 hi1 selTwo).monthlyTrend
      = (dashboard l selMonth sp2 lo2 hi2 selTwo).monthlyTrend ∧
    (dashboard l selMonth sp1 lo1 hi1 selTwo).billedVsPaid
      = (dashboard l selMonth sp2 lo2 hi2 selTwo).billedVsPaid ∧
    (dashboard l selMonth sp1 lo1 hi1 selTwo).comparisonTable
      = (dashboard l selMonth sp2 lo2 hi2 selTwo).comparisonTable :=
  ⟨rfl, rfl, rfl, rfl⟩

/-- C1 (code evaluation at the failing input): on a synthetic month whose
aggregate `Visits` is 0 — produced by legitimate draws, `poisson` giving 0
and `binomial(0, p)` forced to 0 — the code's three rate computations
evaluate to IEEE `nan` (silent 0/0), not to any explicit
division-undefined condition. -/
theorem c1_zero_visits_rates_are_nan :
    KpiDrawsSupport zeroVisitDraws ∧
    (latestKpiRow (generateFakeKpis [(⟨2024, 1, 1⟩, provA, zeroVisitDraws)])).map
        (fun row => (noShowRate row, denialRate row, tmsRate row))
      = some (PdFloat.nan, PdFloat.nan, PdFloat.nan) := by
  constructor
  · norm_num [KpiDrawsSupport, zeroVisitDraws]
  · rfl

/-- C4 counterexample: two records with tied `Units`, CPT "A" encountered
before CPT "B". A tie-break by original row encounter order would put "A"
first; the code's `groupby` (sorted keys) followed by pandas' descending
`sort_values` (ascending argsort, then reversal) puts "B" first. -/
theorem c4_counterexample :
    cptSum [recCptA, recCptB] ≠ cptSumSpec [recCptA, recCptB] ∧
    (cptSum [recCptA, recCptB]).map (fun r => r.key) = [[66], [65]] ∧
    (cptSumSpec [recCptA, recCptB]).map (fun r => r.key) = [[65], [66]] := by
  refine ⟨by decide, by decide, by decide⟩

/-- C4 amended: the top-10-by-units computation is deterministic — its
result depends only on the multiset of input records (it is invariant under
any permutation of the input) — but ties in `Units` are broken by the
implementation's fixed sort over the sorted CPT keys, not by original row
encounter order. -/
theorem c4_amended_deterministic (l1 l2 : List BillingRecord)
    (h : l1.Perm l2) : cptSum l1 = cptSum l2 := by
  suffices hagg : cptAgg l1 = cptAgg l2 by
    simp [cptSum, hagg]
  have hs1 : (keysOf (fun r => r.cpt) l1).Sorted (· ≤ ·) := by
    unfold keysOf; exact List.sorted_insertionSort _ _
  have hs2 : (keysOf (fun r => r.cpt) l2).Sorted (· ≤ ·) := by
    unfold keysOf; exact List.sorted_insertionSort _ _
  have hk : keysOf (fun r => r.cpt) l1 = keysOf (fun r => r.cpt) l2 :=
    List.eq_of_perm_of_sorted
      ((List.perm_insertionSort _ _).trans
        (((h.map _).dedup).trans (List.perm_insertionSort _ _).symm))
      hs1 hs2
  unfold cptAgg groupRows
  rw [hk]
  have hrow : (fun k =>
      let g := l1.filter (fun r => decide (r.cpt = k))
      { key := k, units := (g.map (fun r => r.units)).sum,
        billed := (g.map (fun r => r.billed)).sum,
        net := (g.map (fun r => r.net)).sum : AggRow })
      = (fun k =>
      let g := l2.filter (fun r => decide (r.cpt = k))
      { key := k, units := (g.map (fun r => r.units)).sum,
        billed := (g.map (fun r => r.billed)).sum,
        net := (g.map (fun r => r.net)).sum : AggRow }) := by
    funext k
    have hperm := h.filter (fun r => decide (r.cpt = k))
    simp only
    rw [(hperm.map (fun r => r.units)).sum_eq,
      (hperm.map (fun r => r.billed)).sum_eq,
      (hperm.map (fun r => r.net)).sum_eq]
  rw [hrow]

/-- Witness for C4: the two tied records in either encounter order give the
same top-10 table. -/
theorem c4_witness : cptSum [recCptA, recCptB] = cptSum [recCptB, recCptA] :=
  c4_amended_deterministic _ _ (List.Perm.swap recCptB recCptA [])

/-- C7 counterexample: a dataset missing exactly the `Date` column. The
missing set is the singleton `Date`, but the script never reaches the
missing-columns message: `pd.read_csv` with `parse_dates` naming the absent
`Date` column raises a `ValueError` first. -/
theorem c7_counterexample :
    missingCols ["Units", "Billed Amount", "Net Payment", "Provider", "CPT"]
      = ["Date"] ∧
    loadAndValidate ["Units", "Billed Amount", "Net Payment", "Provider", "CPT"]
      = .error .parseDatesMissing ∧
    LoadError.parseDatesMissing ≠ .missingColumns ["Date"] := by
  refine ⟨rfl, rfl, by decide⟩

/-- C7 amended: for a dataset that does contain a `Date` column but is
missing other required columns, the validation reports exactly the full set
of missing column names (`required_cols - columns`) in a single error and
the run halts with no outputs; if `Date` itself is missing, ingestion fails
earlier, at `read_csv`'s date parsing, before the schema check. -/
theorem c7_amended_schema_validation (cols : List String)
    (hd : "Date" ∈ cols) (hm : missingCols cols ≠ []) :
    loadAndValidate cols = .error (.missingColumns (missingCols cols)) ∧
    (∀ c, c ∈ missingCols cols ↔ (c ∈ requiredCols ∧ c ∉ cols)) ∧
    (∀ l selMonth selProv lo hi selTwo,
      processUpload cols l selMonth selProv lo hi selTwo
        = .error (.missingColumns (missingCols cols))) := by
  have h1 : loadAndValidate cols = .error (.missingColumns (missingCols cols)) := by
    unfold loadAndValidate
    rw [if_pos hd, if_pos hm]
  refine ⟨h1, ?_, ?_⟩
  · intro c
    simp [missingCols, List.mem_filter]
  · intro l selMonth selProv lo hi selTwo
    unfold processUpload
    rw [h1]

/-- Witness for C7 amended: a dataset with only a `Date` column reports the
other five required columns. -/
theorem c7_witness :
    loadAndValidate ["Date"]
      = .error (.missingColumns
          ["Units", "Billed Amount", "Net Payment", "Provider", "CPT"]) := by
  have h := (c7_amended_schema_validation ["Date"] (by decide) (by decide)).1
  rw [h]
  rfl

theorem allMonths_sorted (l : List BillingRecord) :
    (allMonths l).Sorted (· ≤ ·) := by
  unfold allMonths keysOf
  exact List.sorted_insertionSort _ _

/-- C2: when a strictly earlier month with data exists, the baseline is the
totals of the largest such month (`prev_m[-1]`); when the selected month is
the earliest, the baseline is zero and all three deltas equal the current
month's totals. -/
theorem c2_period_over_period (l : List BillingRecord) (sel : PyStr) :
    (∀ p, prevMonth l sel = some p →
      p ∈ allMonths l ∧ p < sel ∧ (∀ m ∈ allMonths l, m < sel → m ≤ p) ∧
        baseline l sel = monthTotals l p) ∧
    (prevMonth l sel = none →
      (∀ m ∈ allMonths l, ¬ m < sel) ∧ baseline l sel = (0, 0, 0) ∧
        deltas l sel = monthTotals l sel) := by
  have hsorted : ((allMonths l).filter (fun m => decide (m < sel))).Sorted (· ≤ ·) :=
    (allMonths_sorted l).filter _
  constructor
  · intro p hp
    rcases List.getLast?_eq_some_iff.mp hp with ⟨ys, hys⟩
    have hpf : p ∈ (allMonths l).filter (fun m => decide (m < sel)) := by
      rw [hys]; simp
    have hmem := (List.mem_filter.mp hpf).1
    have hlt : p < sel := by simpa using (List.mem_filter.mp hpf).2
    refine ⟨hmem, hlt, ?_, ?_⟩
    · intro m hm hmlt
      have hmf : m ∈ (allMonths l).filter (fun m' => decide (m' < sel)) :=
        List.mem_filter.mpr ⟨hm, by simpa using hmlt⟩
      rw [hys] at hmf hsorted
      rcases List.mem_append.mp hmf with h | h
      · exact (List.pairwise_append.mp hsorted).2.2 m h p (by simp)
      · have hmp : m = p := by simpa using h
        exact hmp.le
    · simp [baseline, hp]
  · intro hn
    have hfil := List.getLast?_eq_none_iff.mp hn
    refine ⟨?_, by simp [baseline, hn], by simp [deltas, baseline, hn]⟩
    intro m hm hmlt
    have hmf : m ∈ (allMonths l).filter (fun m' => decide (m' < sel)) :=
      List.mem_filter.mpr ⟨hm, by simpa using hmlt⟩
    rw [hfil] at hmf
    simp at hmf

/-- Witness for C2: on the spec's two-record scenario with February
selected, the preceding month is January and the baseline is January's
totals. -/
theorem c2_witness :
    prevMonth [recJan, recFeb] (monthKey recFeb.date) = some (monthKey recJan.date) ∧
    baseline [recJan, recFeb] (monthKey recFeb.date) = (1, 100, 80) := by
  have h := (c2_period_over_period [recJan, recFeb] (monthKey recFeb.date)).1
    (monthKey recJan.date) (by rfl)
  refine ⟨rfl, ?_⟩
  have hf : List.filter (fun r => decide (monthKey r.date = monthKey recJan.date))
      [recJan, recFeb] = [recJan] := rfl
  rw [h.2.2.2]
  unfold monthTotals
  rw [hf]
  simp [recJan]

/-- C9: selecting any number of providers other than exactly two yields no
comparison output at all (an empty/pending state, not an error); selecting
exactly two providers — the multiselect draws them without repetition from
the providers present in the data — yields a table with exactly two rows. -/
theorem c9_comparison_precondition (l : List BillingRecord) (selTwo : List PyStr) :
    (selTwo.length ≠ 2 → comparisonOf l selTwo = none) ∧
    (selTwo.length = 2 → selTwo.Nodup →
      (∀ p ∈ selTwo, p ∈ providersOf l) →
      ∃ rows, comparisonOf l selTwo = some rows ∧ rows.length = 2) := by
  constructor
  · intro h; simp [comparisonOf, h]
  · intro hlen hnd hsub
    refine ⟨groupRows (fun r => r.provider)
      (l.filter (fun r => decide (r.provider ∈ selTwo))),
      by simp [comparisonOf, hlen], ?_⟩
    have hfs : (((l.filter (fun r => decide (r.provider ∈ selTwo))).map
        (fun r => r.provider)).dedup).toFinset = selTwo.toFinset := by
      ext x
      simp only [List.mem_toFinset, List.mem_dedup, List.mem_map]
      constructor
      · rintro ⟨r, hr, hpx⟩
        have hin : r.provider ∈ selTwo := by
          simpa using (List.mem_filter.mp hr).2
        exact hpx ▸ hin
      · intro hx
        rcases List.mem_map.mp (mem_firstDedup.mp (hsub x hx)) with ⟨r, hr, hpx⟩
        exact ⟨r, List.mem_filter.mpr ⟨hr, by simp [hpx, hx]⟩, hpx⟩
    have hnd' : (((l.filter (fun r => decide (r.provider ∈ selTwo))).map
        (fun r => r.provider)).dedup).Nodup := List.nodup_dedup _
    have hlen1 : (groupRows (fun r => r.provider)
        (l.filter (fun r => decide (r.provider ∈ selTwo)))).length
        = (((l.filter (fun r => decide (r.provider ∈ selTwo))).map
            (fun r => r.provider)).dedup).length := by
      simp [groupRows, keysOf, List.length_insertionSort]
    rw [hlen1, ← List.toFinset_card_of_nodup hnd', hfs,
      List.toFinset_card_of_nodup hnd, hlen]

/-- Witness for C9: two providers present in a two-provider dataset give a
two-row comparison table. -/
theorem c9_witness :
    ∃ rows, comparisonOf [recJan, recBobJan] [provA, provB] = some rows ∧
      rows.length = 2 :=
  (c9_comparison_precondition [recJan, recBobJan] [provA, provB]).2
    rfl (by decide) (by decide)

/-! ## Rounding lemmas for the synthetic generator -/

theorem rndHalfEven_intCast (n : ℤ) : rndHalfEven (n : ℚ) = n := by
  unfold rndHalfEven
  have h : ((n : ℚ)) - ((⌊(n : ℚ)⌋ : ℤ) : ℚ) < 1/2 := by
    rw [Int.floor_intCast]; norm_num
  rw [if_pos h, Int.floor_intCast]

theorem rndHalfEven_three_halves : rndHalfEven (3/2 : ℚ) = 2 := by
  have hf : ⌊(3/2 : ℚ)⌋ = 1 := by
    rw [Int.floor_eq_iff]
    norm_num
  unfold rndHalfEven
  rw [hf]
  rw [if_neg (by norm_num), if_neg (by norm_num), if_neg (by decide)]
  norm_num

theorem rnd2_of_intMul (q : ℚ) (n : ℤ) (h : 100 * q = (n : ℚ)) :
    rnd2 q = (n : ℚ) / 100 := by
  unfold rnd2
  rw [h, rndHalfEven_intCast]

theorem rnd2_three_two_hundredths : rnd2 (3/200 : ℚ) = 1/50 := by
  unfold rnd2
  rw [show (100 : ℚ) * (3/200) = 3/2 by norm_num, rndHalfEven_three_halves]
  norm_num

theorem abs_rndHalfEven_sub (q : ℚ) :
    |((rndHalfEven q : ℤ) : ℚ) - q| ≤ 1/2 := by
  unfold rndHalfEven
  have h0 : (0 : ℚ) ≤ q - (⌊q⌋ : ℚ) := by
    have := Int.floor_le q; linarith
  have h1 : q - (⌊q⌋ : ℚ) < 1 := by
    have := Int.lt_floor_add_one q; linarith
  by_cases hlt : q - (⌊q⌋ : ℚ) < 1/2
  · rw [if_pos hlt, abs_le]
    constructor <;> linarith
  · rw [if_neg hlt]
    by_cases hgt : 1/2 < q - (⌊q⌋ : ℚ)
    · rw [if_pos hgt, abs_le]
      push_cast
      constructor <;> linarith
    · rw [if_neg hgt]
      have heq : q - (⌊q⌋ : ℚ) = 1/2 := by linarith
      by_cases hev : 2 ∣ ⌊q⌋
      · rw [if_pos hev, abs_le]
        constructor <;> linarith
      · rw [if_neg hev, abs_le]
        push_cast
        constructor <;> linarith

theorem abs_rnd2_sub (q : ℚ) : |rnd2 q - q| ≤ 1/200 := by
  unfold rnd2
  have h := abs_rndHalfEven_sub (100 * q)
  rw [abs_le] at h ⊢
  have hq : ((rndHalfEven (100 * q) : ℤ) : ℚ) / 100 - q
      = (((rndHalfEven (100 * q) : ℤ) : ℚ) - 100 * q) / 100 := by ring
  rw [hq]
  constructor <;> [linarith [h.1]; linarith [h.2]]

theorem rndHalfEven_nonneg (q : ℚ) (hq : 0 ≤ q) : 0 ≤ rndHalfEven q := by
  unfold rndHalfEven
  have hfl : (0 : ℤ) ≤ ⌊q⌋ := Int.floor_nonneg.mpr hq
  split_ifs <;> omega

theorem rnd2_nonneg (q : ℚ) (hq : 0 ≤ q) : 0 ≤ rnd2 q := by
  unfold rnd2
  apply div_nonneg _ (by norm_num)
  exact_mod_cast rndHalfEven_nonneg (100 * q) (by linarith)

theorem buckets_close (t b1 b2 b3 b4 : ℚ) (hsum : b1 + b2 + b3 + b4 = 1) :
    |rnd2 (t * b1) + rnd2 (t * b2) + rnd2 (t * b3) + rnd2 (t * b4) - t| ≤ 1/50 := by
  have e1 := abs_rnd2_sub (t * b1)
  have e2 := abs_rnd2_sub (t * b2)
  have e3 := abs_rnd2_sub (t * b3)
  have e4 := abs_rnd2_sub (t * b4)
  rw [abs_le] at e1 e2 e3 e4 ⊢
  have hT : t * b1 + t * b2 + t * b3 + t * b4 = t := by
    have hd : t * b1 + t * b2 + t * b3 + t * b4 = t * (b1 + b2 + b3 + b4) := by
      ring
    rw [hd, hsum, mul_one]
  constructor <;>
    [linarith [e1.1, e2.1, e3.1, e4.1]; linarith [e1.2, e2.2, e3.2, e4.2]]

/-- The `halfCentDraws` record evaluated: `billed`. -/
theorem halfCent_billed :
    (mkKpiRecord ⟨2024, 1, 1⟩ provA halfCentDraws).billed = 3/10 := by
  rw [show (mkKpiRecord ⟨2024, 1, 1⟩ provA halfCentDraws).billed
      = rnd2 ((((1 : ℤ) - 0 : ℤ) : ℚ) * (3/10)) from rfl,
    rnd2_of_intMul _ 30 (by push_cast; norm_num)]
  norm_num

/-- The `halfCentDraws` record evaluated: `netPayment`. -/
theorem halfCent_net :
    (mkKpiRecord ⟨2024, 1, 1⟩ provA halfCentDraws).netPayment = 6/25 := by
  rw [show (mkKpiRecord ⟨2024, 1, 1⟩ provA halfCentDraws).netPayment
      = rnd2 (rnd2 ((((1 : ℤ) - 0 : ℤ) : ℚ) * (3/10)) * (4/5)) from rfl,
    show rnd2 ((((1 : ℤ) - 0 : ℤ) : ℚ) * (3/10)) = 3/10 from halfCent_billed,
    rnd2_of_intMul _ 24 (by norm_num)]
  norm_num

/-- The `halfCentDraws` record evaluated: outstanding total. -/
theorem halfCent_arTot :
    (mkKpiRecord ⟨2024, 1, 1⟩ provA halfCentDraws).billed
      - (mkKpiRecord ⟨2024, 1, 1⟩ provA halfCentDraws).netPayment = 3/50 := by
  rw [halfCent_billed, halfCent_net]
  norm_num

/-- The `halfCentDraws` record evaluated: each aging bucket. -/
theorem halfCent_bucket0 :
    (mkKpiRecord ⟨2024, 1, 1⟩ provA halfCentDraws).ar0_30 = 1/50 := by
  rw [show (mkKpiRecord ⟨2024, 1, 1⟩ provA halfCentDraws).ar0_30
      = rnd2 (((mkKpiRecord ⟨2024, 1, 1⟩ provA halfCentDraws).billed
          - (mkKpiRecord ⟨2024, 1, 1⟩ provA halfCentDraws).netPayment) * (1/4))
      from rfl,
    halfCent_arTot, show (3/50 : ℚ) * (1/4) = 3/200 by norm_num,
    rnd2_three_two_hundredths]

theorem halfCent_bucket1 :
    (mkKpiRecord ⟨2024, 1, 1⟩ provA halfCentDraws).ar31_60 = 1/50 := by
  rw [show (mkKpiRecord ⟨2024, 1, 1⟩ provA halfCentDraws).ar31_60
      = rnd2 (((mkKpiRecord ⟨2024, 1, 1⟩ provA halfCentDraws).billed
          - (mkKpiRecord ⟨2024, 1, 1⟩ provA halfCentDraws).netPayment) * (1/4))
      from rfl,
    halfCent_arTot, show (3/50 : ℚ) * (1/4) = 3/200 by norm_num,
    rnd2_three_two_hundredths]

theorem halfCent_bucket2 :
    (mkKpiRecord ⟨2024, 1, 1⟩ provA halfCentDraws).ar61_90 = 1/50 := by
  rw [show (mkKpiRecord ⟨2024, 1, 1⟩ provA halfCentDraws).ar61_90
      = rnd2 (((mkKpiRecord ⟨2024, 1, 1⟩ provA halfCentDraws).billed
          - (mkKpiRecord ⟨2024, 1, 1⟩ provA halfCentDraws).netPayment) * (1/4))
      from rfl,
    halfCent_arTot, show (3/50 : ℚ) * (1/4) = 3/200 by norm_num,
    rnd2_three_two_hundredths]

theorem halfCent_bucket3 :
    (mkKpiRecord ⟨2024, 1, 1⟩ provA halfCentDraws).ar90plus = 1/50 := by
  rw [show (mkKpiRecord ⟨2024, 1, 1⟩ provA halfCentDraws).ar90plus
      = rnd2 (((mkKpiRecord ⟨2024, 1, 1⟩ provA halfCentDraws).billed
          - (mkKpiRecord ⟨2024, 1, 1⟩ provA halfCentDraws).netPayment) * (1/4))
      from rfl,
    halfCent_arTot, show (3/50 : ℚ) * (1/4) = 3/200 by norm_num,
    rnd2_three_two_hundredths]

/-- C5 counterexample: a record produced by in-support draws
(`completed = 1`, Normal draw `0.3`, collection rate `0.8`, Dirichlet
proportions all `1/4`) whose four buckets sum to `0.08` while
`billed - netPayment = 0.06`: the deviation is `0.02 > 0.01`, because each
of the four two-decimal roundings can move its bucket by up to `0.005`. -/
theorem c5_counterexample :
    KpiDrawsSupport halfCentDraws ∧
    ∃ r ∈ generateFakeKpis [(⟨2024, 1, 1⟩, provA, halfCentDraws)],
      ¬(|r.ar0_30 + r.ar31_60 + r.ar61_90 + r.ar90plus
          - (r.billed - r.netPayment)| ≤ 1/100) := by
  refine ⟨by norm_num [KpiDrawsSupport, halfCentDraws],
    ⟨mkKpiRecord ⟨2024, 1, 1⟩ provA halfCentDraws,
      by simp [generateFakeKpis], ?_⟩⟩
  rw [halfCent_bucket0, halfCent_bucket1, halfCent_bucket2, halfCent_bucket3,
    halfCent_billed, halfCent_net]
  rw [show (1/50 : ℚ) + 1/50 + 1/50 + 1/50 - (3/10 - 6/25) = 1/50 by norm_num]
  rw [abs_of_nonneg (by norm_num)]
  norm_num

/-- C5 amended: for every generated record, `noShows + completed = visits`
holds exactly, and the four A/R buckets sum to `billed - netPayment` within
`0.02` (four roundings to two decimals, each off by at most `0.005`) —
the claimed tolerance of `0.01` is too tight. -/
theorem c5_amended_record_invariant (pairs : List (Date × PyStr × KpiDraws))
    (hsupp : ∀ p ∈ pairs, KpiDrawsSupport p.2.2) :
    ∀ r ∈ generateFakeKpis pairs,
      r.noShows + r.completed = r.visits ∧
      |r.ar0_30 + r.ar31_60 + r.ar61_90 + r.ar90plus
        - (r.billed - r.netPayment)| ≤ 1/50 := by
  intro r hr
  rcases List.mem_map.mp hr with ⟨p, hp, hmk⟩
  obtain ⟨_, _, _, _, _, _, _, _, _, _, _, _, _, hb⟩ := hsupp p hp
  subst hmk
  constructor
  · simp only [mkKpiRecord]
    omega
  · simp only [mkKpiRecord]
    exact buckets_close _ _ _ _ _ hb

/-- Witness for C5 amended: the invariant at the concrete
`halfCentDraws` record (where the bucket deviation is exactly `0.02`). -/
theorem c5_witness :
    (mkKpiRecord ⟨2024, 1, 1⟩ provA halfCentDraws).noShows
        + (mkKpiRecord ⟨2024, 1, 1⟩ provA halfCentDraws).completed
      = (mkKpiRecord ⟨2024, 1, 1⟩ provA halfCentDraws).visits ∧
    |(mkKpiRecord ⟨2024, 1, 1⟩ provA halfCentDraws).ar0_30
        + (mkKpiRecord ⟨2024, 1, 1⟩ provA halfCentDraws).ar31_60
        + (mkKpiRecord ⟨2024, 1, 1⟩ provA halfCentDraws).ar61_90
        + (mkKpiRecord ⟨2024, 1, 1⟩ provA halfCentDraws).ar90plus
        - ((mkKpiRecord ⟨2024, 1, 1⟩ provA halfCentDraws).billed
          - (mkKpiRecord ⟨2024, 1, 1⟩ provA halfCentDraws).netPayment)| ≤ 1/50 :=
  c5_amended_record_invariant [(⟨2024, 1, 1⟩, provA, halfCentDraws)]
    (by intro p hp
        rw [show p = (⟨2024, 1, 1⟩, provA, halfCentDraws) by simpa using hp]
        norm_num [KpiDrawsSupport, halfCentDraws])
    _ (by simp [generateFakeKpis])

/-- The `negBilledDraws` record evaluated: `billed`. -/
theorem negBilled_billed :
    (mkKpiRecord ⟨2024, 1, 1⟩ provA negBilledDraws).billed = -100 := by
  rw [show (mkKpiRecord ⟨2024, 1, 1⟩ provA negBilledDraws).billed
      = rnd2 ((((1 : ℤ) - 0 : ℤ) : ℚ) * (-100)) from rfl,
    rnd2_of_intMul _ (-10000) (by push_cast; norm_num)]
  norm_num

/-- The `negBilledDraws` record evaluated: `netPayment`. -/
theorem negBilled_net :
    (mkKpiRecord ⟨2024, 1, 1⟩ provA negBilledDraws).netPayment = -80 := by
  rw [show (mkKpiRecord ⟨2024, 1, 1⟩ provA negBilledDraws).netPayment
      = rnd2 (rnd2 ((((1 : ℤ) - 0 : ℤ) : ℚ) * (-100)) * (4/5)) from rfl,
    show rnd2 ((((1 : ℤ) - 0 : ℤ) : ℚ) * (-100)) = -100 from negBilled_billed,
    rnd2_of_intMul _ (-8000) (by norm_num)]
  norm_num

/-- The `negBilledDraws` record evaluated: the first aging bucket. -/
theorem negBilled_bucket0 :
    (mkKpiRecord ⟨2024, 1, 1⟩ provA negBilledDraws).ar0_30 = -5 := by
  rw [show (mkKpiRecord ⟨2024, 1, 1⟩ provA negBilledDraws).ar0_30
      = rnd2 (((mkKpiRecord ⟨2024, 1, 1⟩ provA negBilledDraws).billed
          - (mkKpiRecord ⟨2024, 1, 1⟩ provA negBilledDraws).netPayment) * (1/4))
      from rfl,
    negBilled_billed, negBilled_net,
    show ((-100 : ℚ) - -80) * (1/4) = -5 by norm_num,
    rnd2_of_intMul _ (-500) (by norm_num)]
  norm_num

/-- C6 counterexample: in-support draws with a negative Normal draw
(`X = -100`) give `billed = -100`, `netPayment = -80`, outstanding total
`-20`, and a first aging bucket of `-5 < 0`: the buckets are not always
non-negative (no floor is applied). -/
theorem c6_counterexample :
    KpiDrawsSupport negBilledDraws ∧
    ∃ r ∈ generateFakeKpis [(⟨2024, 1, 1⟩, provA, negBilledDraws)],
      r.ar0_30 < 0 := by
  refine ⟨by norm_num [KpiDrawsSupport, negBilledDraws],
    ⟨mkKpiRecord ⟨2024, 1, 1⟩ provA negBilledDraws,
      by simp [generateFakeKpis], ?_⟩⟩
  rw [negBilled_bucket0]
  norm_num

/-- C6 amended: for every generated record whose outstanding total
`billed - netPayment` is non-negative, all four aging buckets are
non-negative (each is a rounding of a product of two non-negatives). -/
theorem c6_amended_bucket_nonneg (pairs : List (Date × PyStr × KpiDraws))
    (hsupp : ∀ p ∈ pairs, KpiDrawsSupport p.2.2) :
    ∀ r ∈ generateFakeKpis pairs, 0 ≤ r.billed - r.netPayment →
      0 ≤ r.ar0_30 ∧ 0 ≤ r.ar31_60 ∧ 0 ≤ r.ar61_90 ∧ 0 ≤ r.ar90plus := by
  intro r hr hpos
  rcases List.mem_map.mp hr with ⟨p, hp, hmk⟩
  obtain ⟨_, _, _, _, _, _, _, _, _, hb1, hb2, hb3, hb4, _⟩ := hsupp p hp
  subst hmk
  simp only [mkKpiRecord] at hpos ⊢
  exact ⟨rnd2_nonneg _ (mul_nonneg hpos hb1.le),
    rnd2_nonneg _ (mul_nonneg hpos hb2.le),
    rnd2_nonneg _ (mul_nonneg hpos hb3.le),
    rnd2_nonneg _ (mul_nonneg hpos hb4.le)⟩

/-- Witness for C6 amended: the `halfCentDraws` record has outstanding
total `0.06 ≥ 0` and hence four non-negative buckets. -/
theorem c6_witness :
    0 ≤ (mkKpiRecord ⟨2024, 1, 1⟩ provA halfCentDraws).ar0_30 ∧
    0 ≤ (mkKpiRecord ⟨2024, 1, 1⟩ provA halfCentDraws).ar31_60 ∧
    0 ≤ (mkKpiRecord ⟨2024, 1, 1⟩ provA halfCentDraws).ar61_90 ∧
    0 ≤ (mkKpiRecord ⟨2024, 1, 1⟩ provA halfCentDraws).ar90plus :=
  c6_amended_bucket_nonneg [(⟨2024, 1, 1⟩, provA, halfCentDraws)]
    (by intro p hp
        rw [show p = (⟨2024, 1, 1⟩, provA, halfCentDraws) by simpa using hp]
        norm_num [KpiDrawsSupport, halfCentDraws])
    _ (by simp [generateFakeKpis])
    (by rw [halfCent_arTot]; norm_num)

/-! ## Month-key order lemmas -/

theorem monthKey_lt_of (d1 d2 : Date) (h1 : validTs d1) (h2 : validTs d2)
    (h : d1.year < d2.year ∨ (d1.year = d2.year ∧ d1.month < d2.month)) :
    monthKey d1 < monthKey d2 := by
  obtain ⟨hy1a, hy1b, hm1a, hm1b, _, _⟩ := h1
  obtain ⟨hy2a, hy2b, hm2a, hm2b, _, _⟩ := h2
  show List.Lex (· < ·) (monthKey d1) (monthKey d2)
  unfold monthKey
  rcases h with hy | ⟨hyeq, hm⟩
  · by_cases c1 : d1.year / 1000 % 10 < d2.year / 1000 % 10
    · exact List.Lex.rel (by unfold digit; omega)
    · have e1 : digit (d1.year / 1000) = digit (d2.year / 1000) := by
        unfold digit; omega
      rw [e1]
      apply List.Lex.cons
      by_cases c2 : d1.year / 100 % 10 < d2.year / 100 % 10
      · exact List.Lex.rel (by unfold digit; omega)
      · have e2 : digit (d1.year / 100) = digit (d2.year / 100) := by
          unfold digit; omega
        rw [e2]
        apply List.Lex.cons
        by_cases c3 : d1.year / 10 % 10 < d2.year / 10 % 10
        · exact List.Lex.rel (by unfold digit; omega)
        · have e3 : digit (d1.year / 10) = digit (d2.year / 10) := by
            unfold digit; omega
          rw [e3]
          apply List.Lex.cons
          exact List.Lex.rel (by unfold digit; omega)
  · have e1 : digit (d1.year / 1000) = digit (d2.year / 1000) := by rw [hyeq]
    have e2 : digit (d1.year / 100) = digit (d2.year / 100) := by rw [hyeq]
    have e3 : digit (d1.year / 10) = digit (d2.year / 10) := by rw [hyeq]
    have e4 : digit d1.year = digit d2.year := by rw [hyeq]
    rw [e1, e2, e3, e4]
    apply List.Lex.cons
    apply List.Lex.cons
    apply List.Lex.cons
    apply List.Lex.cons
    apply List.Lex.cons
    by_cases c5 : d1.month / 10 % 10 < d2.month / 10 % 10
    · exact List.Lex.rel (by unfold digit; omega)
    · have e5 : digit (d1.month / 10) = digit (d2.month / 10) := by
        unfold digit; omega
      rw [e5]
      apply List.Lex.cons
      exact List.Lex.rel (by unfold digit; omega)

theorem monthKey_inj (d1 d2 : Date) (h1 : validTs d1) (h2 : validTs d2)
    (h : monthKey d1 = monthKey d2) : d1.year = d2.year ∧ d1.month = d2.month := by
  obtain ⟨hy1a, hy1b, hm1a, hm1b, _, _⟩ := h1
  obtain ⟨hy2a, hy2b, hm2a, hm2b, _, _⟩ := h2
  unfold monthKey at h
  simp only [List.cons.injEq, and_true] at h
  obtain ⟨e1, e2, e3, e4, _, e5, e6⟩ := h
  unfold digit at e1 e2 e3 e4 e5 e6
  omega

/-- C3: the date-to-MonthKey function is stable (a pure function of the
date, so equal dates give equal keys), and monotone under string order:
for Timestamp-representable dates `d1 < d2`, `monthKey d1 ≤ monthKey d2`
lexicographically, with equality exactly when the two dates fall in the
same calendar month. -/
theorem c3_monthKey_monotone (d1 d2 : Date) (h1 : validTs d1)
    (h2 : validTs d2) :
    (d1 = d2 → monthKey d1 = monthKey d2) ∧
    (dateLt d1 d2 →
      monthKey d1 ≤ monthKey d2 ∧
      (monthKey d1 = monthKey d2 ↔ d1.year = d2.year ∧ d1.month = d2.month)) := by
  refine ⟨fun h => by rw [h], fun hlt => ?_⟩
  by_cases hym : d1.year = d2.year ∧ d1.month = d2.month
  · have hk : monthKey d1 = monthKey d2 := by
      unfold monthKey; rw [hym.1, hym.2]
    exact ⟨hk.le, ⟨fun _ => hym, fun _ => hk⟩⟩
  · have hcase : d1.year < d2.year ∨ (d1.year = d2.year ∧ d1.month < d2.month) := by
      unfold dateLt at hlt
      rcases hlt with h | ⟨he, h⟩
      · exact Or.inl h
      · rcases h with h | ⟨hmm, _⟩
        · exact Or.inr ⟨he, h⟩
        · exact absurd ⟨he, hmm⟩ hym
    have hk := monthKey_lt_of d1 d2 h1 h2 hcase
    exact ⟨hk.le, ⟨fun he => absurd (monthKey_inj d1 d2 h1 h2 he) hym,
      fun he => absurd he hym⟩⟩

/-- Witness for C3: January 5 precedes February 10 of 2024, the keys are
in strict string order and differ. -/
theorem c3_witness :
    validTs ⟨2024, 1, 5⟩ ∧ validTs ⟨2024, 2, 10⟩ ∧
    dateLt ⟨2024, 1, 5⟩ ⟨2024, 2, 10⟩ ∧
    monthKey ⟨2024, 1, 5⟩ ≤ monthKey ⟨2024, 2, 10⟩ ∧
    monthKey ⟨2024, 1, 5⟩ ≠ monthKey ⟨2024, 2, 10⟩ := by
  have h := (c3_monthKey_monotone ⟨2024, 1, 5⟩ ⟨2024, 2, 10⟩
    (by decide) (by decide)).2 (by decide)
  exact ⟨by decide, by decide, by decide, h.1,
    fun he => by simpa using (h.2.mp he).2⟩

end Clinic
